import Mathlib

/-!
Shallow embedding of `src/examples/vulnerable_code.c`, the CWE-120 buffer
overflow demonstration program.

Modelling choices:
* Memory is modelled as lists of byte values (`List Nat`).  A C string
  argument is the list of readable bytes starting at the pointer; if no
  zero byte occurs within the list, the model places the terminator
  immediately after its last element.
* `copy_user_input` is embedded as a pure function recording the bytes
  `strcpy` writes (content up to and including the first terminator),
  whether that write exceeds the 64-byte capacity of `char buffer[64]`,
  and the bytes `printf("Copied: %s\n", buffer)` echoes.  The destination
  buffer's initial (indeterminate) stack contents are an explicit
  parameter `bufInit`.
* `main` is embedded as `mainRun`, a pure function of the standard-input
  byte stream and of the indeterminate initial contents of the two stack
  buffers.  `fgets(input, 256, stdin)` stores at most 255 payload bytes
  (stopping after a newline, byte 10, or at end of input) plus a zero
  terminator; when the stream is already at end-of-file it stores nothing
  and the buffer keeps its initial contents.
-/

/-- Content of the C string held in memory `s`: the bytes before the first
zero byte (the whole list when it holds no zero byte). -/
def strContent (s : List Nat) : List Nat := s.takeWhile (· != 0)

/-- `strlen`: the number of bytes before the first terminator. -/
def cstrlen (s : List Nat) : Nat := (strContent s).length

/-- Capacity of `copy_user_input`'s local destination, `char buffer[64]`. -/
def BUF_CAP : Nat := 64

/-- Bytes `strcpy(buffer, user_input)` writes, in order, starting at
`buffer[0]`: the source content followed by the terminator. -/
def strcpyWritten (src : List Nat) : List Nat := strContent src ++ [0]

/-- Observable record of one call to `copy_user_input`. -/
structure CopyRun where
  /-- Bytes written starting at `buffer[0]`, terminator included. -/
  written : List Nat
  /-- Whether the write ran past the 64-byte capacity. -/
  overflow : Bool
  /-- Bytes `printf` reads back from the buffer (up to its terminator). -/
  echoed : List Nat
deriving Repr, DecidableEq

/-- Embedding of `copy_user_input` (vulnerable_code.c lines 7-16):
`strcpy` into a 64-byte stack buffer with no bounds check, then
`printf("Copied: %s\n", buffer)`.  `bufInit` is the indeterminate initial
memory at `buffer[0]` and beyond. -/
def copy_user_input (bufInit : List Nat) (user_input : List Nat) : CopyRun :=
  let w := strcpyWritten user_input
  let buf := w ++ bufInit.drop w.length
  { written := w
  , overflow := decide (BUF_CAP < w.length)
  , echoed := strContent buf }

/-- Byte values of the literal `"Copied: "`. -/
def copiedBytes : List Nat := [67, 111, 112, 105, 101, 100, 58, 32]

/-- Byte values of the literal `"Enter data: "`. -/
def promptBytes : List Nat := [69, 110, 116, 101, 114, 32, 100, 97, 116, 97, 58, 32]

/-- Bytes `copy_user_input` writes to standard output:
`"Copied: "` then the echoed buffer content then a newline. -/
def copyOutput (r : CopyRun) : List Nat := copiedBytes ++ r.echoed ++ [10]

/-- Payload bytes `fgets` reads when allowed at most `n` of them: it stops
after a newline (byte 10), at end of input, or after `n` bytes. -/
def fgetsPayload : Nat → List Nat → List Nat
  | 0, _ => []
  | _ + 1, [] => []
  | n + 1, c :: rest => if c = 10 then [10] else c :: fgetsPayload n rest

/-- Capacity of `main`'s buffer, `char input[256]`. -/
def INPUT_CAP : Nat := 256

/-- Buffer contents after `fgets(buf, n, stdin)`: on a non-empty stream the
payload (at most `n - 1` bytes) plus terminator overwrite the front of the
buffer and the rest keeps its old contents; at end-of-file `fgets` fails
and the buffer is untouched. -/
def fgetsStore (n : Nat) (stdinBytes : List Nat) (buf : List Nat) : List Nat :=
  if stdinBytes.isEmpty then buf
  else
    let w := fgetsPayload (n - 1) stdinBytes ++ [0]
    w ++ buf.drop w.length

/-- Observable record of one run of `main`. -/
structure MainRun where
  /-- Whether `fgets` returned non-NULL (some byte was available). -/
  fgetsSucceeded : Bool
  /-- Contents of `input[256]` right after the `fgets` call. -/
  bufAfterRead : List Nat
  /-- The bytes handed to `copy_user_input`. -/
  bufPassed : List Nat
  /-- All bytes written to standard output during the run. -/
  outBytes : List Nat
  /-- The process exit status. -/
  exitCode : Nat
deriving Repr, DecidableEq

/-- Embedding of `main` (vulnerable_code.c lines 18-27): prompt, read one
line into `input[256]`, forward the buffer to `copy_user_input`, return 0.
`inputInit` and `destInit` are the indeterminate initial contents of the
two stack buffers. -/
def mainRun (stdinBytes : List Nat) (inputInit : List Nat) (destInit : List Nat) : MainRun :=
  let buf := fgetsStore INPUT_CAP stdinBytes inputInit
  let r := copy_user_input destInit buf
  { fgetsSucceeded := !stdinBytes.isEmpty
  , bufAfterRead := buf
  , bufPassed := buf
  , outBytes := promptBytes ++ copyOutput r
  , exitCode := 0 }

/-! ### Helper lemmas about C-string content -/

lemma takeWhile_append_zero (l rest : List Nat) :
    ((l ++ 0 :: rest).takeWhile (· != 0)) = l.takeWhile (· != 0) := by
  induction l with
  | nil => simp
  | cons a t ih =>
    by_cases h : a = 0
    · subst h; simp
    · simp [List.takeWhile_cons, h, ih]

lemma takeWhile_all_ne (l : List Nat) (h : ∀ b ∈ l, b ≠ 0) :
    l.takeWhile (· != 0) = l := by
  induction l with
  | nil => rfl
  | cons a t ih =>
    have ha : a ≠ 0 := h a (by simp)
    simp [List.takeWhile_cons, ha]
    exact fun b hb => h b (by simp [hb])

lemma strContent_no_zero (s : List Nat) : ∀ b ∈ strContent s, b ≠ 0 := by
  intro b hb
  have := List.mem_takeWhile_imp hb
  simpa using this

lemma strContent_of_all_ne (s : List Nat) (h : ∀ b ∈ s, b ≠ 0) :
    strContent s = s := takeWhile_all_ne s h

lemma strContent_append_zero (l rest : List Nat) :
    strContent (l ++ 0 :: rest) = strContent l :=
  takeWhile_append_zero l rest

lemma strContent_idem (s : List Nat) : strContent (strContent s) = strContent s :=
  takeWhile_all_ne _ (strContent_no_zero s)

lemma strContent_writeback (s rest : List Nat) :
    strContent (strcpyWritten s ++ rest) = strContent s := by
  have h1 : strcpyWritten s ++ rest = strContent s ++ 0 :: rest := by
    simp [strcpyWritten]
  rw [h1, strContent_append_zero, strContent_idem]

lemma copy_echoed_eq (bufInit input : List Nat) :
    (copy_user_input bufInit input).echoed = strContent input := by
  simp [copy_user_input]
  exact strContent_writeback input _

lemma copy_written_eq (bufInit input : List Nat) :
    (copy_user_input bufInit input).written = strContent input ++ [0] := rfl

lemma copy_written_length (bufInit input : List Nat) :
    (copy_user_input bufInit input).written.length = cstrlen input + 1 := by
  simp [copy_written_eq, cstrlen]

lemma fgetsPayload_length_le (n : Nat) (s : List Nat) :
    (fgetsPayload n s).length ≤ n := by
  induction n generalizing s with
  | zero => simp [fgetsPayload]
  | succ k ih =>
    cases s with
    | nil => simp [fgetsPayload]
    | cons c rest =>
      by_cases hc : c = 10
      · simp [fgetsPayload, hc]
      · simp only [fgetsPayload, if_neg hc, List.length_cons]
        exact Nat.succ_le_succ (ih rest)

/-! ### Claim theorems -/

/-- C1: for every input string whose length (excluding the terminator) is
at least 64 bytes, the copy performed by `copy_user_input` writes more
bytes than the 64-byte destination buffer's capacity, i.e. it writes past
the destination's allocated storage, and the overflow flag is set. -/
theorem C1_overflow_write (bufInit input : List Nat) (h : BUF_CAP ≤ cstrlen input) :
    BUF_CAP < (copy_user_input bufInit input).written.length ∧
    (copy_user_input bufInit input).overflow = true := by
  have hlen := copy_written_length bufInit input
  constructor
  · omega
  · simp [copy_user_input, strcpyWritten, cstrlen] at *
    omega

/-- Witness for C1 at a concrete 64-byte input. -/
theorem C1_overflow_write_witness :
    BUF_CAP ≤ cstrlen (List.replicate 64 65) ∧
    (BUF_CAP < (copy_user_input (List.replicate 64 0) (List.replicate 64 65)).written.length ∧
     (copy_user_input (List.replicate 64 0) (List.replicate 64 65)).overflow = true) :=
  ⟨by decide, C1_overflow_write (List.replicate 64 0) (List.replicate 64 65) (by decide)⟩

/-- C2: for every input string of length strictly below 64 bytes
(excluding the terminator, so its bytes are all nonzero), the copy stays
within the destination's capacity and the echoed output is exactly
`"Copied: "` followed by the input and a newline. -/
theorem C2_safe_copy_output (bufInit s : List Nat)
    (h0 : ∀ b ∈ s, b ≠ 0) (hlen : s.length < BUF_CAP) :
    (copy_user_input bufInit s).written.length ≤ BUF_CAP ∧
    copyOutput (copy_user_input bufInit s) = copiedBytes ++ s ++ [10] := by
  have hc : strContent s = s := strContent_of_all_ne s h0
  constructor
  · have := copy_written_length bufInit s
    have hcl : cstrlen s = s.length := by simp [cstrlen, hc]
    omega
  · simp [copyOutput, copy_echoed_eq, hc]

/-- Witness for C2 at the concrete input `"Hi"`. -/
theorem C2_safe_copy_output_witness :
    (∀ b ∈ [72, 105], b ≠ 0) ∧ ([72, 105] : List Nat).length < BUF_CAP ∧
    ((copy_user_input (List.replicate 64 0) [72, 105]).written.length ≤ BUF_CAP ∧
     copyOutput (copy_user_input (List.replicate 64 0) [72, 105]) =
       copiedBytes ++ [72, 105] ++ [10]) :=
  ⟨by decide, by decide,
   C2_safe_copy_output (List.replicate 64 0) [72, 105] (by decide) (by decide)⟩

/-- C3: for a 63-byte input (all bytes nonzero), the copy fits exactly:
the 64 bytes written are the 63 input bytes plus the terminator, no byte
lands outside the 64-byte capacity, and the echoed content is the input
unchanged. -/
theorem C3_boundary_63 (bufInit s : List Nat)
    (h0 : ∀ b ∈ s, b ≠ 0) (hlen : s.length = 63) :
    (copy_user_input bufInit s).written = s ++ [0] ∧
    (copy_user_input bufInit s).written.length = BUF_CAP ∧
    (copy_user_input bufInit s).echoed = s := by
  have hc : strContent s = s := strContent_of_all_ne s h0
  refine ⟨?_, ?_, ?_⟩
  · rw [copy_written_eq, hc]
  · rw [copy_written_length]
    simp [cstrlen, hc, hlen, BUF_CAP]
  · rw [copy_echoed_eq, hc]

/-- Witness for C3 at a concrete 63-byte input. -/
theorem C3_boundary_63_witness :
    (∀ b ∈ List.replicate 63 97, b ≠ 0) ∧ (List.replicate 63 97 : List Nat).length = 63 ∧
    ((copy_user_input (List.replicate 64 0) (List.replicate 63 97)).written =
       List.replicate 63 97 ++ [0] ∧
     (copy_user_input (List.replicate 64 0) (List.replicate 63 97)).written.length = BUF_CAP ∧
     (copy_user_input (List.replicate 64 0) (List.replicate 63 97)).echoed =
       List.replicate 63 97) :=
  ⟨by decide, by decide,
   C3_boundary_63 (List.replicate 64 0) (List.replicate 63 97) (by decide) (by decide)⟩

/-- C4: an input holding an embedded zero byte is truncated at the first
zero: the bytes copied are the zero-free part followed by the terminator
and the echoed output is the zero-free part, whatever bytes follow the
first zero. -/
theorem C4_truncate_at_zero (bufInit pre post : List Nat) (h : ∀ b ∈ pre, b ≠ 0) :
    (copy_user_input bufInit (pre ++ 0 :: post)).written = pre ++ [0] ∧
    (copy_user_input bufInit (pre ++ 0 :: post)).echoed = pre := by
  have hc : strContent (pre ++ 0 :: post) = pre := by
    rw [strContent_append_zero, strContent_of_all_ne pre h]
  constructor
  · rw [copy_written_eq, hc]
  · rw [copy_echoed_eq, hc]

/-- Witness for C4 at a concrete input with an embedded zero. -/
theorem C4_truncate_at_zero_witness :
    (∀ b ∈ [65], b ≠ 0) ∧
    ((copy_user_input (List.replicate 64 0) ([65] ++ 0 :: [66, 67])).written = [65] ++ [0] ∧
     (copy_user_input (List.replicate 64 0) ([65] ++ 0 :: [66, 67])).echoed = [65]) :=
  ⟨by decide, C4_truncate_at_zero (List.replicate 64 0) [65] [66, 67] (by decide)⟩

/-- C5: for the empty input (first byte is the terminator) only the
terminator is written, well within capacity, and the output line is
exactly `"Copied: "` followed by the newline and nothing else. -/
theorem C5_empty_input (bufInit rest : List Nat) :
    (copy_user_input bufInit (0 :: rest)).written = [0] ∧
    (copy_user_input bufInit (0 :: rest)).written.length ≤ BUF_CAP ∧
    copyOutput (copy_user_input bufInit (0 :: rest)) = copiedBytes ++ [10] := by
  have hc : strContent (0 :: rest) = [] := rfl
  refine ⟨?_, ?_, ?_⟩
  · rw [copy_written_eq, hc]; rfl
  · rw [copy_written_eq, hc]; simp [BUF_CAP]
  · simp [copyOutput, copy_echoed_eq, hc]

/-- C6: `main`'s read is bounded and itself safe: the payload `fgets`
stores is at most 255 bytes, the bytes it writes (payload plus
terminator) are at most 256, and the 256-byte buffer keeps its length, so
nothing is written outside it. -/
theorem C6_bounded_read (stdinBytes inputInit : List Nat)
    (h : inputInit.length = INPUT_CAP) :
    (fgetsPayload (INPUT_CAP - 1) stdinBytes).length ≤ 255 ∧
    (fgetsPayload (INPUT_CAP - 1) stdinBytes).length + 1 ≤ INPUT_CAP ∧
    (fgetsStore INPUT_CAP stdinBytes inputInit).length = INPUT_CAP := by
  have hI : INPUT_CAP = 256 := rfl
  have hp : (fgetsPayload (INPUT_CAP - 1) stdinBytes).length ≤ INPUT_CAP - 1 :=
    fgetsPayload_length_le _ _
  refine ⟨by omega, by omega, ?_⟩
  by_cases he : stdinBytes.isEmpty
  · rw [fgetsStore, if_pos he, h]
  · rw [fgetsStore, if_neg he]
    simp only [List.length_append, List.length_drop, List.length_cons, List.length_nil, h]
    omega

/-- Witness for C6 at a concrete one-line stream. -/
theorem C6_bounded_read_witness :
    (List.replicate 256 0 : List Nat).length = INPUT_CAP ∧
    ((fgetsPayload (INPUT_CAP - 1) [72, 10]).length ≤ 255 ∧
     (fgetsPayload (INPUT_CAP - 1) [72, 10]).length + 1 ≤ INPUT_CAP ∧
     (fgetsStore INPUT_CAP [72, 10] (List.replicate 256 0)).length = INPUT_CAP) :=
  ⟨(List.length_replicate 256 0).trans rfl,
   C6_bounded_read [72, 10] (List.replicate 256 0) ((List.length_replicate 256 0).trans rfl)⟩

/-- C7: `main` always returns the success status 0, and nothing in the
program signals an error: whatever the input, the run's whole output is
the prompt, then `"Copied: "`, the echoed content and a newline, with no
error path even when the copy exceeded the destination capacity. -/
theorem C7_always_success (stdinBytes inputInit destInit : List Nat) :
    (mainRun stdinBytes inputInit destInit).exitCode = 0 ∧
    (mainRun stdinBytes inputInit destInit).outBytes =
      promptBytes ++ copiedBytes ++
        (copy_user_input destInit (fgetsStore INPUT_CAP stdinBytes inputInit)).echoed ++ [10] := by
  refine ⟨rfl, ?_⟩
  simp [mainRun, copyOutput]

/-- C8: the buffer `main` hands to `copy_user_input` is byte-for-byte the
buffer the read from standard input produced: no transformation happens
in between. -/
theorem C8_forward_unmodified (stdinBytes inputInit destInit : List Nat) :
    (mainRun stdinBytes inputInit destInit).bufPassed =
      (mainRun stdinBytes inputInit destInit).bufAfterRead ∧
    (mainRun stdinBytes inputInit destInit).bufPassed =
      fgetsStore INPUT_CAP stdinBytes inputInit :=
  ⟨rfl, rfl⟩

/-- C9: the program is deterministic and its output depends only on
standard input: two runs on the same stream (non-empty, so the read
succeeds, and with the stored string below the overflow threshold, so
behavior is defined) write the same bytes to standard output and exit
with the same code, whatever the indeterminate initial stack contents
were. -/
theorem C9_deterministic (stdinBytes i1 i2 d1 d2 : List Nat)
    (hne : stdinBytes ≠ [])
    (hlen : cstrlen (fgetsStore INPUT_CAP stdinBytes i1) < BUF_CAP) :
    (mainRun stdinBytes i1 d1).outBytes = (mainRun stdinBytes i2 d2).outBytes ∧
    (mainRun stdinBytes i1 d1).exitCode = (mainRun stdinBytes i2 d2).exitCode := by
  have hse : stdinBytes.isEmpty = false := by
    simpa [List.isEmpty_iff] using hne
  have hbuf : ∀ init : List Nat,
      strContent (fgetsStore INPUT_CAP stdinBytes init) =
        strContent (fgetsPayload (INPUT_CAP - 1) stdinBytes) := by
    intro init
    rw [fgetsStore, if_neg (by simp [hse])]
    have h1 : (fgetsPayload (INPUT_CAP - 1) stdinBytes ++ [0]) ++
        init.drop (fgetsPayload (INPUT_CAP - 1) stdinBytes ++ [0]).length =
        fgetsPayload (INPUT_CAP - 1) stdinBytes ++
          0 :: init.drop (fgetsPayload (INPUT_CAP - 1) stdinBytes ++ [0]).length := by
      simp
    rw [h1, strContent_append_zero]
  constructor
  · simp only [mainRun, copyOutput, copy_echoed_eq, hbuf]
  · rfl

/-- Witness for C9 at the concrete stream `"H\n"` and two pairs of
distinct initial stack contents. -/
theorem C9_deterministic_witness :
    ([72, 10] : List Nat) ≠ [] ∧
    cstrlen (fgetsStore INPUT_CAP [72, 10] (List.replicate 256 0)) < BUF_CAP ∧
    ((mainRun [72, 10] (List.replicate 256 0) (List.replicate 64 0)).outBytes =
       (mainRun [72, 10] (List.replicate 256 1) (List.replicate 64 2)).outBytes ∧
     (mainRun [72, 10] (List.replicate 256 0) (List.replicate 64 0)).exitCode =
       (mainRun [72, 10] (List.replicate 256 1) (List.replicate 64 2)).exitCode) :=
  ⟨by decide, by decide,
   C9_deterministic [72, 10] (List.replicate 256 0) (List.replicate 256 1)
     (List.replicate 64 0) (List.replicate 64 2) (by decide) (by decide)⟩

/-- C10: `main` never checks whether the read succeeded: on an empty
stream (end-of-file before any byte) `fgets` fails, yet `main` still
passes the input buffer, holding its indeterminate initial contents, to
`copy_user_input`, and the copy and echo operate on that indeterminate
data. -/
theorem C10_eof_unchecked (inputInit destInit : List Nat) :
    (mainRun [] inputInit destInit).fgetsSucceeded = false ∧
    (mainRun [] inputInit destInit).bufPassed = inputInit ∧
    (mainRun [] inputInit destInit).outBytes =
      promptBytes ++ copyOutput (copy_user_input destInit inputInit) :=
  ⟨rfl, rfl, rfl⟩
